import Mathlib

/-!
Verification of the protocol-header consistency checker (`check_headers.py`).

Shallow embedding conventions:
* Filesystem paths are plain strings; `pathJoin` models the pathlib slash
  operator.
* A directory is an association list from filename to file contents, where
  contents are the list of lines returned by `readlines()`.
* The external generator (`wayland-scanner server-header in out`) is modelled
  as a function parameter `gen : String -> Option (List String)` mapping the
  input xml path to the lines of the header it writes; `none` models a
  `CalledProcessError` (non-zero exit).  Being a Lean function, `gen` is
  deterministic by construction.
* The `pkgconf` invocation in `get_wayland_protocols_dir` is modelled as an
  `Option String` parameter: `none` models `CalledProcessError`, `some out`
  models a captured stdout `out`.
* `argparse` handling in `parse_args` is abstracted to the two directory
  options it produces (`--wayland-dir`, defaulted elsewhere, and the required
  `--wlroots-dir`); the `--generate` flag does not affect the resolved list.
* The mutable state visible to `check`/`generate` is `FS`: the include
  directory plus the stack of currently live temporary directories, so that
  the with-block of `tempfile.TemporaryDirectory` (create on entry, remove on both
  normal and exceptional exit) is explicit in the state threading.
-/

/-- The fixed list of relative document paths rooted at the shared
wayland-protocols directory (`WAYLAND_PROCOTOLS` in the source, typo
included). -/
def WAYLAND_PROCOTOLS : List String :=
  [ "stable/xdg-shell/xdg-shell.xml",
    "unstable/idle-inhibit/idle-inhibit-unstable-v1.xml",
    "unstable/pointer-constraints/pointer-constraints-unstable-v1.xml" ]

/-- The fixed list of relative document paths rooted at the wlroots
directory. -/
def WLROOTS_PROTOCOLS : List String :=
  [ "protocol/idle.xml",
    "protocol/wlr-output-power-management-unstable-v1.xml",
    "protocol/wlr-layer-shell-unstable-v1.xml" ]

/-- Models the pathlib join `base / rel` for a relative `rel`. -/
def pathJoin (base rel : String) : String := base ++ "/" ++ rel

/-- Models `pathlib.Path.name`: the final path component (the characters after
the last slash). -/
def pathName (p : String) : String :=
  String.mk ((p.toList.reverse.takeWhile (fun c => c ≠ '/')).reverse)

/-- Models `str.strip()`: drop whitespace from both ends. -/
def pyStrip (s : String) : String :=
  String.mk (((s.toList.dropWhile Char.isWhitespace).reverse.dropWhile
    Char.isWhitespace).reverse)

/-- Models `pathlib.Path.stem`: the final component without its last suffix.  CPython
computes `i = name.rfind('.')` and strips from `i` only when `0 < i <
len(name) - 1`. -/
def pyStem (p : String) : String :=
  let name := pathName p
  let cs := name.toList
  match (cs.reverse.indexOf? '.') with
  | none => name
  | some j =>
    let i := cs.length - 1 - j
    if 0 < i && i < cs.length - 1 then String.mk (cs.take i) else name

/-- Models `header_filename(xml_file)`: the stem of the document followed by
the literal suffix -protocol.h. -/
def header_filename (xml_file : String) : String :=
  pyStem xml_file ++ "-protocol.h"

/-- Models `get_wayland_protocols_dir()`: runs `pkgconf --variable=pkgdatadir
wayland-protocols`; a `CalledProcessError` (modelled by `none`) yields `None`,
otherwise the stripped output is returned as a path when non-empty. -/
def get_wayland_protocols_dir (pkgconfOutput : Option String) : Option String :=
  match pkgconfOutput with
  | none => none
  | some out =>
    let s := pyStrip out
    if s = "" then none else some s

/-- Errors raised by `parse_args` (all `ValueError` in the source; split by
message here). -/
inductive ParseError where
  | waylandDirMissing (dir : Option String)
  | wlrootsDirMissing (dir : String)
  | protocolMissing (path : String)
deriving DecidableEq, Repr

/-- The resolved document list: the shared-protocol relative paths rooted at
the wayland directory, in configured order, followed by the project-specific
relative paths rooted at the wlroots directory, in configured order. -/
def resolvedDocs (waylandDir wlrootsDir : String) : List String :=
  WAYLAND_PROCOTOLS.map (pathJoin waylandDir) ++
    WLROOTS_PROTOCOLS.map (pathJoin wlrootsDir)

/-- Model of `parse_args` after argparse: validates the two base directories, resolves
the configured relative paths against them in declared order, and fails at the
first resolved path that does not exist.  `fsE` models `Path.exists()`. -/
def parse_args (fsE : String → Bool) (waylandDir : Option String)
    (wlrootsDir : String) : Except ParseError (List String) :=
  match waylandDir with
  | none => Except.error (ParseError.waylandDirMissing none)
  | some wd =>
    if fsE wd = false then Except.error (ParseError.waylandDirMissing (some wd))
    else if fsE wlrootsDir = false then
      Except.error (ParseError.wlrootsDirMissing wlrootsDir)
    else
      match (resolvedDocs wd wlrootsDir).find? (fun p => !fsE p) with
      | some p => Except.error (ParseError.protocolMissing p)
      | none => Except.ok (resolvedDocs wd wlrootsDir)

/-- The filesystem state threaded through `check` and `generate`: the include
directory and the stack of live temporary directories. -/
structure FS where
  includeDir : List (String × List String)
  tempDirs : List (List (String × List String))
deriving DecidableEq, Repr

/-- Errors raised by `check` (all `ValueError` in the source; split by
message).  `setMismatch` carries the two set differences the message prints
(Python renders them as lists in hash order; sets are the faithful model);
`readFailure` models the `FileNotFoundError` that `open` would raise if a
checked-in header were absent. -/
inductive CheckError where
  | setMismatch (missing extra : Finset String)
  | readFailure (doc : String)
  | genFailure (doc : String)
  | lineCountMismatch (doc : String)
  | lineMismatch (doc : String) (idx : Nat) (generatedLine gotLine : String)
deriving DecidableEq

/-- Decidable equality for `Except`, used to evaluate run outcomes on concrete
inputs. -/
instance {ε α : Type} [DecidableEq ε] [DecidableEq α] : DecidableEq (Except ε α) :=
  fun a b =>
  match a, b with
  | Except.error e, Except.error f =>
    if h : e = f then isTrue (congrArg Except.error h)
    else isFalse (fun hh => h (Except.error.inj hh))
  | Except.error _, Except.ok _ => isFalse (fun hh => Except.noConfusion hh)
  | Except.ok _, Except.error _ => isFalse (fun hh => Except.noConfusion hh)
  | Except.ok x, Except.ok y =>
    if h : x = y then isTrue (congrArg Except.ok h)
    else isFalse (fun hh => h (Except.ok.inj hh))

/-- The expected header-filename set derived from a document list:
`{header_filename(p) for p in protocols}`. -/
def expectedNames (protocols : List String) : Finset String :=
  (protocols.map header_filename).toFinset

/-- The filename set of a directory: `{path.name for path in dir.iterdir()}`. -/
def dirNames (dir : List (String × List String)) : Finset String :=
  (dir.map Prod.fst).toFinset

/-- First index (offset by `i`) at which the zipped line lists differ, with the
two differing lines: `enumerate(zip(generated_header, protocol_header))` with
early exit on the first `generated_line != line`. -/
def firstMismatch : List String → List String → Nat → Option (Nat × String × String)
  | g :: gs, l :: ls, i =>
    if g ≠ l then some (i, g, l) else firstMismatch gs ls (i + 1)
  | _, _, _ => none

/-- Writing a file into a directory (`wayland-scanner` writing
`output_dir / header_filename(input)`): replaces any entry with that name. -/
def setFile (dir : List (String × List String)) (name : String)
    (content : List String) : List (String × List String) :=
  (name, content) :: dir.filter (fun kv => kv.1 ≠ name)

/-- One iteration of the per-document loop of `check`: read the checked-in header,
generate a fresh header inside a `TemporaryDirectory` (created on entry and
removed on every exit of the with-block), then compare line counts and lines.
Returns the outcome together with the filesystem state after the iteration. -/
def checkOne (gen : String → Option (List String)) (fs : FS) (p : String) :
    Except CheckError Unit × FS :=
  match List.lookup (header_filename p) fs.includeDir with
  | none => (Except.error (CheckError.readFailure (pathName p)), fs)
  | some protocolHeader =>
    match gen p with
    | none =>
      let entered : FS := { fs with tempDirs := [] :: fs.tempDirs }
      let exited : FS := { entered with tempDirs := entered.tempDirs.tail }
      (Except.error (CheckError.genFailure (pathName p)), exited)
    | some generatedHeader =>
      let entered : FS :=
        { fs with tempDirs := [(header_filename p, generatedHeader)] :: fs.tempDirs }
      let exited : FS := { entered with tempDirs := entered.tempDirs.tail }
      if protocolHeader.length ≠ generatedHeader.length then
        (Except.error (CheckError.lineCountMismatch (pathName p)), exited)
      else
        match firstMismatch generatedHeader protocolHeader 0 with
        | some (i, g, l) =>
          (Except.error (CheckError.lineMismatch (pathName p) i g l), exited)
        | none => (Except.ok (), exited)

/-- The per-document loop of `check`, stopping at the first error. -/
def checkDocs (gen : String → Option (List String)) (fs : FS) :
    List String → Except CheckError Unit × FS
  | [] => (Except.ok (), fs)
  | p :: ps =>
    match checkOne gen fs p with
    | (Except.ok _, fs1) => checkDocs gen fs1 ps
    | (Except.error e, fs1) => (Except.error e, fs1)

/-- Models `check(protocols)`: compares the expected header-filename set against the
filename set of the include directory, raising on any difference, then runs the
per-document comparison loop in order. -/
def check (gen : String → Option (List String)) (fs : FS)
    (protocols : List String) : Except CheckError Unit × FS :=
  if expectedNames protocols ≠ dirNames fs.includeDir then
    (Except.error (CheckError.setMismatch
      (expectedNames protocols \ dirNames fs.includeDir)
      (dirNames fs.includeDir \ expectedNames protocols)), fs)
  else
    checkDocs gen fs protocols

/-- Models `generate(protocols)`: writes a freshly generated header for each document
directly into the include directory, stopping if the generator fails. -/
def generate (gen : String → Option (List String)) (fs : FS) :
    List String → Except CheckError Unit × FS
  | [] => (Except.ok (), fs)
  | p :: ps =>
    match gen p with
    | none => (Except.error (CheckError.genFailure (pathName p)), fs)
    | some content =>
      generate gen
        { fs with includeDir := setFile fs.includeDir (header_filename p) content } ps
theorem checkOne_snd (gen : String → Option (List String)) (fs : FS) (p : String) :
    (checkOne gen fs p).2 = fs := by
  unfold checkOne
  cases hl : List.lookup (header_filename p) fs.includeDir with
  | none => rfl
  | some lines =>
    cases hg : gen p with
    | none => rfl
    | some g =>
      dsimp only
      split
      · rfl
      · split <;> rfl

theorem checkOne_eq_of_ok (gen : String → Option (List String)) (fs : FS) (p : String)
    (h : (checkOne gen fs p).1 = Except.ok ()) :
    checkOne gen fs p = (Except.ok (), fs) := by
  have h2 := checkOne_snd gen fs p
  have h3 : checkOne gen fs p = ((checkOne gen fs p).1, (checkOne gen fs p).2) := rfl
  rw [h3, h, h2]

theorem checkOne_eq_of_error (gen : String → Option (List String)) (fs : FS) (p : String)
    (e : CheckError) (h : (checkOne gen fs p).1 = Except.error e) :
    checkOne gen fs p = (Except.error e, fs) := by
  have h2 := checkOne_snd gen fs p
  have h3 : checkOne gen fs p = ((checkOne gen fs p).1, (checkOne gen fs p).2) := rfl
  rw [h3, h, h2]

theorem checkDocs_snd (gen : String → Option (List String)) :
    ∀ (ps : List String) (fs : FS), (checkDocs gen fs ps).2 = fs := by
  intro ps
  induction ps with
  | nil => intro fs; rfl
  | cons p ps ih =>
    intro fs
    unfold checkDocs
    cases hc : checkOne gen fs p with
    | mk r fs1 =>
      have hfs1 : fs1 = fs := by
        have := checkOne_snd gen fs p
        rw [hc] at this
        exact this
      cases r with
      | ok u => simpa [hfs1] using ih fs
      | error e => simpa using hfs1

theorem check_snd (gen : String → Option (List String)) (fs : FS) (ps : List String) :
    (check gen fs ps).2 = fs := by
  unfold check
  split
  · rfl
  · exact checkDocs_snd gen ps fs

theorem firstMismatch_self (l : List String) : ∀ i, firstMismatch l l i = none := by
  induction l with
  | nil => intro i; rfl
  | cons x xs ih => intro i; simp [firstMismatch, ih]

theorem checkOne_fst_ne_setMismatch (gen : String → Option (List String)) (fs : FS)
    (p : String) (m e : Finset String) :
    (checkOne gen fs p).1 ≠ Except.error (CheckError.setMismatch m e) := by
  unfold checkOne
  cases hl : List.lookup (header_filename p) fs.includeDir with
  | none => simp
  | some lines =>
    cases hg : gen p with
    | none => simp
    | some g =>
      dsimp only
      split
      · simp
      · split <;> simp

theorem checkDocs_fst_ne_setMismatch (gen : String → Option (List String)) :
    ∀ (ps : List String) (fs : FS) (m e : Finset String),
      (checkDocs gen fs ps).1 ≠ Except.error (CheckError.setMismatch m e) := by
  intro ps
  induction ps with
  | nil => intro fs m e; simp [checkDocs]
  | cons p ps ih =>
    intro fs m e
    unfold checkDocs
    cases hc : checkOne gen fs p with
    | mk r fs1 =>
      cases r with
      | ok u => exact ih fs1 m e
      | error err =>
        have : (checkOne gen fs p).1 = Except.error err := by rw [hc]
        simpa using fun hh => checkOne_fst_ne_setMismatch gen fs p m e (by rw [this, hh])

theorem checkDocs_all_ok (gen : String → Option (List String)) :
    ∀ (ps : List String) (fs : FS),
      (∀ p ∈ ps, (checkOne gen fs p).1 = Except.ok ()) →
      checkDocs gen fs ps = (Except.ok (), fs) := by
  intro ps
  induction ps with
  | nil => intro fs _; rfl
  | cons p ps ih =>
    intro fs h
    have hp := checkOne_eq_of_ok gen fs p (h p (by simp))
    unfold checkDocs
    rw [hp]
    exact ih fs (fun q hq => h q (by simp [hq]))

theorem checkDocs_cons (gen : String → Option (List String)) (fs : FS)
    (p : String) (ps : List String) :
    checkDocs gen fs (p :: ps) =
      match checkOne gen fs p with
      | (Except.ok _, fs1) => checkDocs gen fs1 ps
      | (Except.error e, fs1) => (Except.error e, fs1) := rfl

theorem checkDocs_append_of_ok (gen : String → Option (List String)) :
    ∀ (pre : List String) (fs : FS) (ps : List String),
      (∀ q ∈ pre, (checkOne gen fs q).1 = Except.ok ()) →
      checkDocs gen fs (pre ++ ps) = checkDocs gen fs ps := by
  intro pre
  induction pre with
  | nil => intro fs ps _; rfl
  | cons q qs ih =>
    intro fs ps h
    have hq := checkOne_eq_of_ok gen fs q (h q (by simp))
    have step : checkDocs gen fs ((q :: qs) ++ ps) = checkDocs gen fs (qs ++ ps) := by
      rw [List.cons_append, checkDocs_cons, hq]
    rw [step]
    exact ih fs ps (fun r hr => h r (by simp [hr]))

theorem firstMismatch_spec :
    ∀ (gs ls : List String) (k i : Nat),
      k < gs.length → k < ls.length →
      gs.getD k "" ≠ ls.getD k "" →
      (∀ j, j < k → gs.getD j "" = ls.getD j "") →
      firstMismatch gs ls i = some (i + k, gs.getD k "", ls.getD k "") := by
  intro gs
  induction gs with
  | nil => intro ls k i hkg _ _ _; simp at hkg
  | cons g gs ih =>
    intro ls k i hkg hkl hdiff hfirst
    cases ls with
    | nil => simp at hkl
    | cons l ls =>
      cases k with
      | zero =>
        simp only [List.getD_cons_zero] at hdiff
        simp [firstMismatch, hdiff]
      | succ k =>
        have hgl : g = l := by
          have := hfirst 0 (Nat.succ_pos k)
          simpa using this
        subst hgl
        have hrec := ih ls k (i + 1)
          (by simpa using hkg) (by simpa using hkl)
          (by simpa using hdiff)
          (fun j hj => by
            have := hfirst (j + 1) (by omega)
            simpa using this)
        have hi : i + 1 + k = i + (k + 1) := by omega
        rw [hi] at hrec
        simpa [firstMismatch] using hrec

theorem lookup_cons_self {b : Type} (k : String) (v : b) (es : List (String × b)) :
    List.lookup k ((k, v) :: es) = some v := by
  simp [List.lookup]

theorem lookup_cons_ne {b : Type} (k n : String) (v : b) (es : List (String × b))
    (h : n ≠ k) : List.lookup n ((k, v) :: es) = List.lookup n es := by
  have hb : (n == k) = false := by simp [h]
  simp [List.lookup, hb]

theorem lookup_filter_ne (n m : String) (h : n ≠ m) :
    ∀ (dir : List (String × List String)),
      List.lookup n (dir.filter (fun kv => kv.1 ≠ m)) = List.lookup n dir := by
  intro dir
  induction dir with
  | nil => rfl
  | cons kv dir ih =>
    obtain ⟨k, v⟩ := kv
    rw [List.filter_cons]
    by_cases hk : k = m
    · subst hk
      rw [if_neg (by simp), ih, lookup_cons_ne k n v dir h]
    · rw [if_pos (by simp [hk])]
      by_cases hnk : n = k
      · subst hnk
        rw [lookup_cons_self, lookup_cons_self]
      · rw [lookup_cons_ne k n v _ hnk, lookup_cons_ne k n v dir hnk, ih]

theorem lookup_setFile_self (dir : List (String × List String)) (n : String)
    (c : List String) : List.lookup n (setFile dir n c) = some c := by
  simp [setFile, List.lookup]

theorem lookup_setFile_ne (dir : List (String × List String)) (n m : String)
    (c : List String) (h : n ≠ m) :
    List.lookup n (setFile dir m c) = List.lookup n dir := by
  rw [setFile, lookup_cons_ne m n c _ h]
  exact lookup_filter_ne n m h dir

theorem dirNames_setFile (dir : List (String × List String)) (n : String)
    (c : List String) :
    dirNames (setFile dir n c) = insert n (dirNames dir) := by
  ext x
  simp [dirNames, setFile, List.mem_filter]
  tauto

theorem generate_cons (gen : String → Option (List String)) (fs : FS)
    (p : String) (ps : List String) :
    generate gen fs (p :: ps) =
      match gen p with
      | none => (Except.error (CheckError.genFailure (pathName p)), fs)
      | some content =>
        generate gen
          { fs with includeDir := setFile fs.includeDir (header_filename p) content }
          ps := rfl

theorem generate_snd_tempDirs (gen : String → Option (List String)) :
    ∀ (ps : List String) (fs : FS), ((generate gen fs ps).2).tempDirs = fs.tempDirs := by
  intro ps
  induction ps with
  | nil => intro fs; rfl
  | cons p ps ih =>
    intro fs
    rw [generate_cons]
    cases hg : gen p with
    | none => rfl
    | some c => exact ih _

theorem generate_ok (gen : String → Option (List String)) :
    ∀ (ps : List String) (fs : FS),
      (∀ p ∈ ps, (gen p).isSome = true) → (generate gen fs ps).1 = Except.ok () := by
  intro ps
  induction ps with
  | nil => intro fs _; rfl
  | cons p ps ih =>
    intro fs h
    have hp := h p (by simp)
    rw [generate_cons]
    cases hg : gen p with
    | none => rw [hg] at hp; simp at hp
    | some c => exact ih _ (fun q hq => h q (by simp [hq]))

theorem generate_dirNames (gen : String → Option (List String)) :
    ∀ (ps : List String) (fs : FS),
      (∀ p ∈ ps, (gen p).isSome = true) →
      dirNames ((generate gen fs ps).2).includeDir =
        dirNames fs.includeDir ∪ expectedNames ps := by
  intro ps
  induction ps with
  | nil => intro fs _; simp [generate, expectedNames, dirNames]
  | cons p ps ih =>
    intro fs h
    have hp := h p (by simp)
    rw [generate_cons]
    cases hg : gen p with
    | none => rw [hg] at hp; simp at hp
    | some c =>
      rw [ih _ (fun q hq => h q (by simp [hq]))]
      rw [show ({ fs with includeDir := setFile fs.includeDir (header_filename p) c } : FS).includeDir
            = setFile fs.includeDir (header_filename p) c from rfl]
      rw [dirNames_setFile]
      ext x
      simp [expectedNames]

theorem generate_lookup_not_mem (gen : String → Option (List String)) :
    ∀ (ps : List String) (fs : FS) (n : String),
      n ∉ ps.map header_filename →
      List.lookup n ((generate gen fs ps).2).includeDir =
        List.lookup n fs.includeDir := by
  intro ps
  induction ps with
  | nil => intro fs n _; rfl
  | cons p ps ih =>
    intro fs n hn
    have hn1 : n ≠ header_filename p := by simp at hn; exact hn.1
    have hn2 : n ∉ ps.map header_filename := by simp at hn; simpa using hn.2
    rw [generate_cons]
    cases hg : gen p with
    | none => rfl
    | some c =>
      rw [ih _ n hn2]
      exact lookup_setFile_ne fs.includeDir n (header_filename p) c hn1

theorem generate_lookup_mem (gen : String → Option (List String)) :
    ∀ (ps : List String) (fs : FS) (p : String) (c : List String),
      (∀ q ∈ ps, (gen q).isSome = true) →
      (ps.map header_filename).Nodup →
      p ∈ ps → gen p = some c →
      List.lookup (header_filename p) ((generate gen fs ps).2).includeDir = some c := by
  intro ps
  induction ps with
  | nil => intro fs p c _ _ hmem _; simp at hmem
  | cons q qs ih =>
    intro fs p c h hnd hmem hc
    have hq := h q (by simp)
    cases hg : gen q with
    | none => rw [hg] at hq; simp at hq
    | some cq =>
      rw [generate_cons, hg]
      rcases List.mem_cons.mp hmem with rfl | hmem2
      · have hnotin : header_filename p ∉ qs.map header_filename := by
          simpa using (List.nodup_cons.mp hnd).1
        rw [generate_lookup_not_mem gen qs _ _ hnotin]
        rw [hg] at hc
        have hcc : cq = c := Option.some.inj hc
        subst hcc
        exact lookup_setFile_self fs.includeDir (header_filename p) cq
      · exact ih _ p c (fun r hr => h r (by simp [hr])) (List.nodup_cons.mp hnd).2 hmem2 hc

/-- Claim C8: a failure to invoke the package-config query tool (a
`CalledProcessError`, modelled by `none`) yields the no-default result `None`
rather than raising an error. -/
theorem pkgconf_failure_yields_none :
    get_wayland_protocols_dir none = none := rfl

/-- Claim C4: `check` never modifies the filesystem state (include directory
or temp-dir stack), so running it twice in a row with unchanged inputs
produces identical results; in particular two successive successful runs
return the same success. -/
theorem check_idempotent_no_side_effects (gen : String → Option (List String))
    (fs : FS) (protocols : List String) :
    (check gen fs protocols).2 = fs ∧
    check gen ((check gen fs protocols).2) protocols = check gen fs protocols := by
  refine ⟨check_snd gen fs protocols, ?_⟩
  rw [check_snd gen fs protocols]

/-- Claim C9: the per-document temporary directory is removed on every exit
path: after any single document iteration (success, generation failure, or
comparison failure) and after any whole run of `check`, the stack of live
temporary directories is exactly what it was before. -/
theorem check_tempdirs_removed_every_path (gen : String → Option (List String))
    (fs : FS) :
    (∀ p : String, ((checkOne gen fs p).2).tempDirs = fs.tempDirs) ∧
    (∀ protocols : List String, ((check gen fs protocols).2).tempDirs = fs.tempDirs) := by
  constructor
  · intro p; rw [checkOne_snd]
  · intro ps; rw [check_snd]

/-- Claim C2: when the expected header-filename set differs from the include
filename set of the include directory, `check` fails carrying exactly the symmetric
difference partitioned into missing (expected minus actual) and extra (actual
minus expected); when the two sets are equal it never raises a set-mismatch
error. -/
theorem check_reports_set_difference (gen : String → Option (List String))
    (fs : FS) (protocols : List String) :
    (expectedNames protocols ≠ dirNames fs.includeDir →
      (check gen fs protocols).1 = Except.error (CheckError.setMismatch
        (expectedNames protocols \ dirNames fs.includeDir)
        (dirNames fs.includeDir \ expectedNames protocols))) ∧
    (expectedNames protocols = dirNames fs.includeDir →
      ∀ m e : Finset String,
        (check gen fs protocols).1 ≠ Except.error (CheckError.setMismatch m e)) := by
  constructor
  · intro h
    unfold check
    rw [if_pos h]
  · intro h m e
    unfold check
    rw [if_neg (by simp [h])]
    exact checkDocs_fst_ne_setMismatch gen protocols fs m e

/-- Claim C2 witness: with headers for documents A and B checked in and the
configuration listing A and C, `check` reports missing C-protocol.h and extra
B-protocol.h. -/
theorem check_reports_set_difference_witness :
    (check (fun _ => some []) ⟨[("A-protocol.h", []), ("B-protocol.h", [])], []⟩
      ["A.xml", "C.xml"]).1 =
      Except.error (CheckError.setMismatch {"C-protocol.h"} {"B-protocol.h"}) :=
  ((check_reports_set_difference (fun _ => some [])
    ⟨[("A-protocol.h", []), ("B-protocol.h", [])], []⟩ ["A.xml", "C.xml"]).1
    (by decide)).trans (by decide)

/-- Claim C10: when the filename sets differ, `check` raises the set-mismatch
error before any generation work: the whole run result is the set-mismatch
error with the filesystem state untouched, and the result does not depend on
the generator at all. -/
theorem check_set_mismatch_precedes_generation
    (gen gen2 : String → Option (List String)) (fs : FS) (protocols : List String)
    (h : expectedNames protocols ≠ dirNames fs.includeDir) :
    check gen fs protocols =
      (Except.error (CheckError.setMismatch
        (expectedNames protocols \ dirNames fs.includeDir)
        (dirNames fs.includeDir \ expectedNames protocols)), fs) ∧
    check gen2 fs protocols = check gen fs protocols := by
  have h1 : ∀ g : String → Option (List String), check g fs protocols =
      (Except.error (CheckError.setMismatch
        (expectedNames protocols \ dirNames fs.includeDir)
        (dirNames fs.includeDir \ expectedNames protocols)), fs) := by
    intro g
    unfold check
    rw [if_pos h]
  exact ⟨h1 gen, (h1 gen2).trans (h1 gen).symm⟩

/-- Claim C10 witness: at a set-mismatching input the run result is
independent of the generator (here a succeeding and a failing one). -/
theorem check_set_mismatch_precedes_generation_witness :
    check (fun _ => none) ⟨[("B-protocol.h", [])], []⟩ ["A.xml"] =
      check (fun _ => some ["x\n"]) ⟨[("B-protocol.h", [])], []⟩ ["A.xml"] :=
  (check_set_mismatch_precedes_generation (fun _ => some ["x\n"]) (fun _ => none)
    ⟨[("B-protocol.h", [])], []⟩ ["A.xml"] (by decide)).2

/-- Claim C1: scanning documents in resolved order with all earlier documents
passing, a document whose checked-in and freshly generated headers have the
same line count but differ in content makes `check` fail reporting the
0-based index of the first differing line (and the two line values there). -/
theorem check_reports_first_differing_line
    (gen : String → Option (List String)) (fs : FS)
    (pre post : List String) (p : String)
    (protocolHeader generatedHeader : List String) (k : Nat)
    (hset : expectedNames (pre ++ p :: post) = dirNames fs.includeDir)
    (hpre : ∀ q ∈ pre, (checkOne gen fs q).1 = Except.ok ())
    (hlook : List.lookup (header_filename p) fs.includeDir = some protocolHeader)
    (hgen : gen p = some generatedHeader)
    (hlen : protocolHeader.length = generatedHeader.length)
    (hk : k < generatedHeader.length)
    (hdiff : generatedHeader.getD k "" ≠ protocolHeader.getD k "")
    (hfirst : ∀ j, j < k → generatedHeader.getD j "" = protocolHeader.getD j "") :
    (check gen fs (pre ++ p :: post)).1 =
      Except.error (CheckError.lineMismatch (pathName p) k
        (generatedHeader.getD k "") (protocolHeader.getD k "")) := by
  have hc : check gen fs (pre ++ p :: post) = checkDocs gen fs (pre ++ p :: post) := by
    unfold check
    rw [if_neg (by simp [hset])]
  rw [hc, checkDocs_append_of_ok gen pre fs (p :: post) hpre]
  have hfm : firstMismatch generatedHeader protocolHeader 0 =
      some (k, generatedHeader.getD k "", protocolHeader.getD k "") := by
    have := firstMismatch_spec generatedHeader protocolHeader k 0 hk (by omega) hdiff hfirst
    simpa using this
  have hone : (checkOne gen fs p).1 =
      Except.error (CheckError.lineMismatch (pathName p) k
        (generatedHeader.getD k "") (protocolHeader.getD k "")) := by
    have hnn : ¬ protocolHeader.length ≠ generatedHeader.length := by omega
    simp only [checkOne, hlook, hgen, if_neg hnn, hfm]
  rw [checkDocs_cons, checkOne_eq_of_error gen fs p _ hone]

/-- Claim C1 witness: a one-document run whose headers agree at line 0 and
differ at line 1 reports index 1 with both line values. -/
theorem check_reports_first_differing_line_witness :
    (check (fun _ => some ["l0\n", "x1\n"]) ⟨[("a-protocol.h", ["l0\n", "l1\n"])], []⟩
      ["d/a.xml"]).1 =
      Except.error (CheckError.lineMismatch "a.xml" 1 "x1\n" "l1\n") :=
  (check_reports_first_differing_line (fun _ => some ["l0\n", "x1\n"])
    ⟨[("a-protocol.h", ["l0\n", "l1\n"])], []⟩ [] [] "d/a.xml"
    ["l0\n", "l1\n"] ["l0\n", "x1\n"] 1
    (by decide) (by simp) (by decide) rfl (by decide) (by decide) (by decide)
    (by decide)).trans (by decide)

/-- Claim C5: scanning documents in resolved order with all earlier documents
passing, a document whose checked-in and freshly generated headers have
different line counts makes `check` fail with a line-count mismatch error
carrying only the document name. -/
theorem check_reports_line_count_mismatch
    (gen : String → Option (List String)) (fs : FS)
    (pre post : List String) (p : String)
    (protocolHeader generatedHeader : List String)
    (hset : expectedNames (pre ++ p :: post) = dirNames fs.includeDir)
    (hpre : ∀ q ∈ pre, (checkOne gen fs q).1 = Except.ok ())
    (hlook : List.lookup (header_filename p) fs.includeDir = some protocolHeader)
    (hgen : gen p = some generatedHeader)
    (hlen : protocolHeader.length ≠ generatedHeader.length) :
    (check gen fs (pre ++ p :: post)).1 =
      Except.error (CheckError.lineCountMismatch (pathName p)) := by
  have hc : check gen fs (pre ++ p :: post) = checkDocs gen fs (pre ++ p :: post) := by
    unfold check
    rw [if_neg (by simp [hset])]
  rw [hc, checkDocs_append_of_ok gen pre fs (p :: post) hpre]
  have hone : (checkOne gen fs p).1 =
      Except.error (CheckError.lineCountMismatch (pathName p)) := by
    simp only [checkOne, hlook, hgen, if_pos hlen]
  rw [checkDocs_cons, checkOne_eq_of_error gen fs p _ hone]

/-- Claim C5 witness: configuration lists document A, the checked-in header
for A has 10 lines and the generator now produces 11; `check` raises a
line-count mismatch naming A.xml. -/
theorem check_reports_line_count_mismatch_witness :
    (check (fun _ => some (List.replicate 11 "x\n"))
      ⟨[("A-protocol.h", List.replicate 10 "x\n")], []⟩ ["d/A.xml"]).1 =
      Except.error (CheckError.lineCountMismatch "A.xml") :=
  (check_reports_line_count_mismatch (fun _ => some (List.replicate 11 "x\n"))
    ⟨[("A-protocol.h", List.replicate 10 "x\n")], []⟩ [] [] "d/A.xml"
    (List.replicate 10 "x\n") (List.replicate 11 "x\n")
    (by decide) (by simp) (by decide) rfl (by decide)).trans (by decide)

/-- Generator producing the same fixed header for every document; used in the
stale-file scenario. -/
def genStale : String → Option (List String) := fun _ => some ["generated\n"]

/-- Generator whose output depends on the document path; used in the
colliding-stem scenario (two documents in different base directories sharing a
stem, hence a header filename). -/
def genCollide : String → Option (List String) :=
  fun p => if p = "d1/a.xml" then some ["one\n"] else some ["two\n"]

/-- Claim C3 counterexample: the round trip does not hold for every initial
include-directory state or document list even with a deterministic, always
succeeding generator.  First scenario: an initial include directory holding a
stale header (`zzz-protocol.h`) not among the expected names; `generate`
succeeds but never deletes it, so the following `check` fails.  Second
scenario: an empty initial directory but two documents whose stems collide on
the same header filename with different generated contents; the second write
overwrites the first, so the following `check` fails. -/
theorem generate_then_check_roundtrip_counterexample :
    ((generate genStale ⟨[("zzz-protocol.h", ["old\n"])], []⟩ ["d/a.xml"]).1 =
        Except.ok () ∧
      (check genStale
        ((generate genStale ⟨[("zzz-protocol.h", ["old\n"])], []⟩ ["d/a.xml"]).2)
        ["d/a.xml"]).1 ≠ Except.ok ()) ∧
    ((generate genCollide ⟨[], []⟩ ["d1/a.xml", "d2/a.xml"]).1 = Except.ok () ∧
      (check genCollide
        ((generate genCollide ⟨[], []⟩ ["d1/a.xml", "d2/a.xml"]).2)
        ["d1/a.xml", "d2/a.xml"]).1 ≠ Except.ok ()) := by
  decide

/-- Claim C3 (amended): if the generator succeeds on every listed document,
the derived header filenames of the documents are pairwise distinct, and every
filename initially present in the include directory is among the expected
header filenames, then `generate` followed immediately by `check` for the
same document list succeeds. -/
theorem generate_then_check_roundtrip (gen : String → Option (List String))
    (fs : FS) (protocols : List String)
    (hgen : ∀ p ∈ protocols, (gen p).isSome = true)
    (hnodup : (protocols.map header_filename).Nodup)
    (hsub : ∀ n ∈ fs.includeDir.map Prod.fst, n ∈ protocols.map header_filename) :
    (generate gen fs protocols).1 = Except.ok () ∧
    (check gen ((generate gen fs protocols).2) protocols).1 = Except.ok () := by
  refine ⟨generate_ok gen protocols fs hgen, ?_⟩
  have hnames : expectedNames protocols =
      dirNames ((generate gen fs protocols).2).includeDir := by
    rw [generate_dirNames gen protocols fs hgen]
    have hs : dirNames fs.includeDir ⊆ expectedNames protocols := by
      intro x hx
      simp only [dirNames, List.mem_toFinset] at hx
      simpa [expectedNames] using hsub x hx
    rw [Finset.union_eq_right.mpr hs]
  have hall : ∀ p ∈ protocols,
      (checkOne gen ((generate gen fs protocols).2) p).1 = Except.ok () := by
    intro p hp
    have hps := hgen p hp
    cases hg : gen p with
    | none => rw [hg] at hps; simp at hps
    | some c =>
      have hlook := generate_lookup_mem gen protocols fs p c hgen hnodup hp hg
      simp only [checkOne, hlook, hg, if_neg (by omega : ¬ c.length ≠ c.length),
        firstMismatch_self]
  have hcheck : check gen ((generate gen fs protocols).2) protocols =
      checkDocs gen ((generate gen fs protocols).2) protocols := by
    unfold check
    rw [if_neg (by simp [hnames])]
  rw [hcheck, checkDocs_all_ok gen protocols ((generate gen fs protocols).2) hall]

/-- Claim C3 witness: one document into an initially empty include directory;
regeneration followed by checking succeeds. -/
theorem generate_then_check_roundtrip_witness :
    (generate (fun _ => some ["g\n"]) ⟨[], []⟩ ["d/a.xml"]).1 = Except.ok () ∧
    (check (fun _ => some ["g\n"])
      ((generate (fun _ => some ["g\n"]) ⟨[], []⟩ ["d/a.xml"]).2) ["d/a.xml"]).1 =
      Except.ok () :=
  generate_then_check_roundtrip (fun _ => some ["g\n"]) ⟨[], []⟩ ["d/a.xml"]
    (by decide) (by decide) (by decide)

/-- Unfolding equation for `parse_args` at a supplied wayland directory. -/
theorem parse_args_some (fsE : String → Bool) (wd wlrootsDir : String) :
    parse_args fsE (some wd) wlrootsDir =
      (if fsE wd = false then Except.error (ParseError.waylandDirMissing (some wd))
       else if fsE wlrootsDir = false then
         Except.error (ParseError.wlrootsDirMissing wlrootsDir)
       else
         match (resolvedDocs wd wlrootsDir).find? (fun p => !fsE p) with
         | some p => Except.error (ParseError.protocolMissing p)
         | none => Except.ok (resolvedDocs wd wlrootsDir)) := rfl

/-- Claim C6: whenever `parse_args` succeeds, the returned document list is
exactly the shared-protocol relative paths rooted at the wayland directory in
configured order followed by the project-specific relative paths rooted at the
wlroots directory in configured order, with one entry per configured relative
path and no deduplication. -/
theorem parse_args_resolved_order (fsE : String → Bool) (waylandDir : Option String)
    (wlrootsDir : String) (ps : List String)
    (h : parse_args fsE waylandDir wlrootsDir = Except.ok ps) :
    ∃ wd, waylandDir = some wd ∧
      ps = WAYLAND_PROCOTOLS.map (pathJoin wd) ++
        WLROOTS_PROTOCOLS.map (pathJoin wlrootsDir) ∧
      ps.length = WAYLAND_PROCOTOLS.length + WLROOTS_PROTOCOLS.length := by
  cases waylandDir with
  | none => simp [parse_args] at h
  | some wd =>
    refine ⟨wd, rfl, ?_⟩
    rw [parse_args_some] at h
    by_cases h1 : fsE wd = false
    · rw [if_pos h1] at h
      exact absurd h (by simp)
    · rw [if_neg h1] at h
      by_cases h2 : fsE wlrootsDir = false
      · rw [if_pos h2] at h
        exact absurd h (by simp)
      · rw [if_neg h2] at h
        cases hf : (resolvedDocs wd wlrootsDir).find? (fun p => !fsE p) with
        | some q =>
          rw [hf] at h
          exact absurd h (by simp)
        | none =>
          rw [hf] at h
          have hps : resolvedDocs wd wlrootsDir = ps := Except.ok.inj h
          subst hps
          exact ⟨rfl, by simp [resolvedDocs]⟩

/-- Claim C6 witness: with both directories existing and every resolved path
present, the resolved list is the declared concatenation with one entry per
configured path. -/
theorem parse_args_resolved_order_witness :
    ∃ wd, (some "W" : Option String) = some wd ∧
      resolvedDocs "W" "R" = WAYLAND_PROCOTOLS.map (pathJoin wd) ++
        WLROOTS_PROTOCOLS.map (pathJoin "R") ∧
      (resolvedDocs "W" "R").length =
        WAYLAND_PROCOTOLS.length + WLROOTS_PROTOCOLS.length :=
  parse_args_resolved_order (fun _ => true) (some "W") "R" (resolvedDocs "W" "R")
    (by decide)

/-- Claim C7: protocol resolution succeeds exactly when the wayland directory
is supplied and exists, the wlroots directory exists, and every resolved
document path exists; whenever any of these fails, `parse_args` returns an
error and no document list. -/
theorem parse_args_success_iff (fsE : String → Bool) (waylandDir : Option String)
    (wlrootsDir : String) :
    (∃ ps, parse_args fsE waylandDir wlrootsDir = Except.ok ps) ↔
    (∃ wd, waylandDir = some wd ∧ fsE wd = true ∧ fsE wlrootsDir = true ∧
      ∀ p ∈ resolvedDocs wd wlrootsDir, fsE p = true) := by
  cases waylandDir with
  | none => simp [parse_args]
  | some wd =>
    constructor
    · rintro ⟨ps, h⟩
      rw [parse_args_some] at h
      by_cases h1 : fsE wd = false
      · rw [if_pos h1] at h
        exact absurd h (by simp)
      · rw [if_neg h1] at h
        by_cases h2 : fsE wlrootsDir = false
        · rw [if_pos h2] at h
          exact absurd h (by simp)
        · rw [if_neg h2] at h
          refine ⟨wd, rfl, by simpa using h1, by simpa using h2, ?_⟩
          cases hf : (resolvedDocs wd wlrootsDir).find? (fun p => !fsE p) with
          | some q =>
            rw [hf] at h
            exact absurd h (by simp)
          | none =>
            intro p hp
            have := List.find?_eq_none.mp hf p hp
            simpa using this
    · rintro ⟨wd2, hwd, h1, h2, hall⟩
      obtain rfl := Option.some.inj hwd
      refine ⟨resolvedDocs wd wlrootsDir, ?_⟩
      rw [parse_args_some]
      rw [if_neg (by simp [h1]), if_neg (by simp [h2])]
      rw [List.find?_eq_none.mpr (fun p hp => by simp [hall p hp])]

/-- Claim C7 witness: with both directories supplied and every path existing,
resolution succeeds and returns a document list. -/
theorem parse_args_success_iff_witness :
    ∃ ps, parse_args (fun _ => true) (some "W") "R" = Except.ok ps :=
  (parse_args_success_iff (fun _ => true) (some "W") "R").mpr
    ⟨"W", rfl, rfl, rfl, by decide⟩
